import Mathlib

/-!
# Verification of the MediTrend post-generation core (src/App.tsx)

Shallow embedding of the data model and algorithms of `src/App.tsx`:
the search-response normalizer (`searchMedicalArticles`, lines 90-112),
the post-content normalizer (`generateIgContent`, lines 184-193), the
illustration fallback (`generateCuteImage`, lines 200-249), the clipboard
text builder (`handleCopyCaption`, lines 578-604), the table-image layout
(`generateTableImage` / `wrapText`, lines 438-544), and the pipeline state
machine (`handleSearch` / `handleGenerate` plus the UI guards).

JavaScript runtime values returned by `JSON.parse` (and the expando
properties the code attaches to them) are modelled by the inductive `JVal`.
Numbers are modelled as rationals, `Date.now()` as an explicit natural
number parameter, and thrown/caught exceptions as `Except` values.
-/

/-- A JavaScript value as produced by `JSON.parse`, extended with the
expando string-keyed properties the code may attach to arrays
(`{...r, id: ...}` spreads, `json.comparisonTable.rows = []` assignments).
`arr` carries both its elements and its named (non-index) properties. -/
inductive JVal where
  | null
  | bool (b : Bool)
  | num (q : ℚ)
  | str (s : String)
  | arr (elems : List JVal) (props : List (String × JVal))
  | obj (props : List (String × JVal))

/-- Property lookup in an ordered property list (JS object semantics:
`JSON.parse` yields uniquely-keyed objects; lookup returns the value of
the first matching key, `none` models `undefined`). -/
def getPropList : List (String × JVal) → String → Option JVal
  | [], _ => none
  | (k, v) :: rest, key => if k = key then some v else getPropList rest key

/-- Property write: an existing key is updated in place (JS preserves the
insertion order of keys on assignment), a new key is appended. -/
def setPropList : List (String × JVal) → String → JVal → List (String × JVal)
  | [], key, v => [(key, v)]
  | (k, w) :: rest, key, v =>
    if k = key then (key, v) :: rest else (k, w) :: setPropList rest key v

/-- Reading a named (non-index) property of a value.  Objects and arrays
consult their property lists; reading a property of a primitive yields
`undefined` (`none`).  (The code never reads a property of `null` on the
paths modelled here except where it throws, which is modelled separately.) -/
def getProp (j : JVal) (k : String) : Option JVal :=
  match j with
  | .obj f => getPropList f k
  | .arr _ ps => getPropList ps k
  | _ => none

/-- Whether the value is an object or an array, i.e. a value property
assignment succeeds on (assignment to a primitive throws in strict mode). -/
def isObjLike : JVal → Bool
  | .obj _ => true
  | .arr _ _ => true
  | _ => false

/-- Writing a named property.  Only ever applied to object-like values in
the embedding (the code paths guard the primitive case, which throws). -/
def setProp (j : JVal) (k : String) (v : JVal) : JVal :=
  match j with
  | .obj f => .obj (setPropList f k v)
  | .arr es ps => .arr es (setPropList ps k v)
  | other => other

/-- JS truthiness of a possibly-`undefined` value: `undefined`, `null`,
`false`, `0` and `""` are falsy; every object and array (even empty) is
truthy. -/
def jsTruthy : Option JVal → Bool
  | none => false
  | some .null => false
  | some (.bool b) => b
  | some (.num q) => decide (q ≠ 0)
  | some (.str s) => decide (s ≠ "")
  | some (.arr _ _) => true
  | some (.obj _) => true

/-! ## Decimal representation: `Nat.repr` is injective

The generated ids embed `${index}` and `${Date.now()}` via decimal
notation (`Nat.repr` in the embedding).  Distinctness of the ids needs
injectivity of `Nat.repr`, proved here by a decimal parser round-trip. -/

/-- Numeric value of a decimal digit character. -/
def digitVal (c : Char) : Nat := c.toNat - '0'.toNat

/-- Left fold of decimal digits onto an accumulator. -/
def parseDecAcc : Nat → List Char → Nat
  | a, [] => a
  | a, c :: cs => parseDecAcc (a * 10 + digitVal c) cs

theorem digitVal_digitChar {d : Nat} (h : d < 10) :
    digitVal (Nat.digitChar d) = d := by
  revert h
  revert d
  decide

theorem parseDecAcc_toDigitsCore :
    ∀ (fuel n : Nat) (ds : List Char), n < fuel →
      parseDecAcc 0 (Nat.toDigitsCore 10 fuel n ds) = parseDecAcc n ds := by
  intro fuel
  induction fuel with
  | zero => intro n ds h; exact absurd h (Nat.not_lt_zero n)
  | succ f ih =>
    intro n ds h
    show parseDecAcc 0
      (if n / 10 = 0 then Nat.digitChar (n % 10) :: ds
       else Nat.toDigitsCore 10 f (n / 10) (Nat.digitChar (n % 10) :: ds)) =
      parseDecAcc n ds
    by_cases h0 : n / 10 = 0
    · rw [if_pos h0]
      have hn : n < 10 := by omega
      show parseDecAcc (0 * 10 + digitVal (Nat.digitChar (n % 10))) ds = parseDecAcc n ds
      rw [digitVal_digitChar (Nat.mod_lt n (by omega)), Nat.mod_eq_of_lt hn]
      simp
    · rw [if_neg h0]
      have hpos : 0 < n := by
        rcases Nat.eq_zero_or_pos n with h1 | h1
        · exact absurd (by simp [h1]) h0
        · exact h1
      have hdiv : n / 10 < f := by
        have h1 : n / 10 < n := Nat.div_lt_self hpos (by omega)
        omega
      rw [ih (n / 10) (Nat.digitChar (n % 10) :: ds) hdiv]
      show parseDecAcc (n / 10 * 10 + digitVal (Nat.digitChar (n % 10))) ds = parseDecAcc n ds
      rw [digitVal_digitChar (Nat.mod_lt n (by omega))]
      have hsum : n / 10 * 10 + n % 10 = n := by omega
      rw [hsum]

theorem parseDecAcc_repr (n : Nat) : parseDecAcc 0 (Nat.repr n).data = n := by
  show parseDecAcc 0 (Nat.toDigits 10 n).asString.data = n
  show parseDecAcc 0 (Nat.toDigitsCore 10 (n + 1) n []) = n
  rw [parseDecAcc_toDigitsCore (n + 1) n [] (Nat.lt_succ_self n)]
  rfl

theorem natRepr_injective : Function.Injective Nat.repr := by
  intro m n h
  have hm := parseDecAcc_repr m
  rw [h, parseDecAcc_repr n] at hm
  exact hm.symm

/-! ## Assoc-list property lemmas -/

theorem getPropList_setPropList_same (f : List (String × JVal)) (k : String) (v : JVal) :
    getPropList (setPropList f k v) k = some v := by
  induction f with
  | nil => simp [setPropList, getPropList]
  | cons hd tl ih =>
    obtain ⟨k', w⟩ := hd
    by_cases h : k' = k
    · simp [setPropList, h, getPropList]
    · simp [setPropList, h, getPropList, ih]

theorem getPropList_setPropList_ne (f : List (String × JVal)) (k k' : String) (v : JVal)
    (h : k ≠ k') : getPropList (setPropList f k v) k' = getPropList f k' := by
  induction f with
  | nil => simp [setPropList, getPropList, h]
  | cons hd tl ih =>
    obtain ⟨k₀, w⟩ := hd
    by_cases h0 : k₀ = k
    · subst h0
      simp [setPropList, getPropList, h]
    · simp only [setPropList, if_neg h0, getPropList]
      by_cases h1 : k₀ = k'
      · simp [h1]
      · simp [h1, ih]

theorem setPropList_self (f : List (String × JVal)) (k : String) (v : JVal)
    (h : getPropList f k = some v) : setPropList f k v = f := by
  induction f with
  | nil => simp [getPropList] at h
  | cons hd tl ih =>
    obtain ⟨k₀, w⟩ := hd
    by_cases h0 : k₀ = k
    · subst h0
      have h' : w = v := by simpa [getPropList] using h
      simp [setPropList, h']
    · simp only [getPropList, if_neg h0] at h
      simp [setPropList, h0, ih h]

theorem setPropList_setPropList_same (f : List (String × JVal)) (k : String) (v v' : JVal) :
    setPropList (setPropList f k v) k v' = setPropList f k v' := by
  induction f with
  | nil => simp [setPropList]
  | cons hd tl ih =>
    obtain ⟨k₀, w⟩ := hd
    by_cases h0 : k₀ = k
    · simp [setPropList, h0]
    · simp [setPropList, h0, ih]

theorem getProp_setProp_same (j : JVal) (k : String) (v : JVal) (h : isObjLike j = true) :
    getProp (setProp j k v) k = some v := by
  cases j <;> simp_all [isObjLike, setProp, getProp, getPropList_setPropList_same]

theorem getProp_setProp_ne (j : JVal) (k k' : String) (v : JVal) (h : k ≠ k') :
    getProp (setProp j k v) k' = getProp j k' := by
  cases j <;> simp [setProp, getProp, getPropList_setPropList_ne _ _ _ _ h]

theorem setProp_self (j : JVal) (k : String) (v : JVal)
    (h : getProp j k = some v) : setProp j k v = j := by
  cases j <;> simp_all [getProp, setProp] <;> exact setPropList_self _ _ _ h

theorem isObjLike_setProp (j : JVal) (k : String) (v : JVal) :
    isObjLike (setProp j k v) = isObjLike j := by
  cases j <;> rfl

/-! ## SearchStage normalization (`searchMedicalArticles`, src/App.tsx 90-116)

```
let results = JSON.parse(cleanText);
if (!Array.isArray(results)) {
   if (results && typeof results === 'object') {
      if (Array.isArray(results.results)) results = results.results;
      else if (Array.isArray(results.items)) results = results.items;
      else if (Array.isArray(results.data)) results = results.data;
      else return [];
   } else {
      return [];
   }
}
return results.map((r, index) => ({ ...r, id: `res-${index}-${Date.now()}` }));
```
A `JSON.parse` failure propagates out of the surrounding `try` block
(re-thrown by the `catch`); it is the only error this code can raise. -/

/-- Array recovery of the search normalizer: a top-level array is used as
is; otherwise an object is probed for an array under `results`, `items`,
`data` in that order; anything else yields the empty list. -/
def recoverArray (j : JVal) : List JVal :=
  match j with
  | .arr es _ => es
  | .obj f =>
    match getPropList f "results" with
    | some (.arr es _) => es
    | _ =>
      match getPropList f "items" with
      | some (.arr es _) => es
      | _ =>
        match getPropList f "data" with
        | some (.arr es _) => es
        | _ => []
  | _ => []

/-- The locally generated identifier `res-${index}-${Date.now()}`; the
`Date.now()` timestamp is the explicit parameter `t`. -/
def mkResId (index t : Nat) : String :=
  "res-" ++ Nat.repr index ++ "-" ++ Nat.repr t

/-- The own enumerable properties a value contributes to an object spread
`{...r}`: objects give their properties, arrays their indexed elements
plus expando properties, strings their indexed characters, primitives
nothing. -/
def ownProps : JVal → List (String × JVal)
  | .obj f => f
  | .arr es ps => (es.enum.map fun p => (Nat.repr p.1, p.2)) ++ ps
  | .str s => s.data.enum.map fun p => (Nat.repr p.1, .str (String.singleton p.2))
  | _ => []

/-- One element of the search normalizer's map:
`{ ...r, id: `res-${index}-${Date.now()}` }`. -/
def assignResId (t index : Nat) (r : JVal) : JVal :=
  .obj (setPropList (ownProps r) "id" (.str (mkResId index t)))

/-- `List.map` with the element index, as in JS `array.map((r, index) => ...)`. -/
def mapWithIndexFrom (g : Nat → JVal → JVal) : Nat → List JVal → List JVal
  | _, [] => []
  | i, r :: rest => g i r :: mapWithIndexFrom g (i + 1) rest

/-- The full search-shape normalization of a parsed JSON value at
timestamp `t`. -/
def normalizeSearch (t : Nat) (j : JVal) : List JVal :=
  mapWithIndexFrom (assignResId t) 0 (recoverArray j)

/-- The search result path including the parse step: a `JSON.parse`
failure (the `Except.error` case) is re-thrown by the `catch` block and is
the only failure; every successfully parsed value normalizes. -/
def searchResultsOf (t : Nat) (parsed : Except String JVal) : Except String (List JVal) :=
  match parsed with
  | .error e => .error e
  | .ok j => .ok (normalizeSearch t j)

theorem mkResId_injective (t : Nat) : Function.Injective (mkResId · t) := by
  intro i j h
  apply natRepr_injective
  apply String.ext
  have hd := congrArg String.data h
  simp only [mkResId, String.data_append, List.append_assoc] at hd
  have h1 := List.append_cancel_left hd
  exact List.append_cancel_right h1

theorem length_mapWithIndexFrom (g : Nat → JVal → JVal) :
    ∀ (n : Nat) (l : List JVal), (mapWithIndexFrom g n l).length = l.length := by
  intro n l
  induction l generalizing n with
  | nil => rfl
  | cons r rest ih => simp [mapWithIndexFrom, ih]

theorem get_mapWithIndexFrom (g : Nat → JVal → JVal) :
    ∀ (l : List JVal) (n i : Nat) (h : i < (mapWithIndexFrom g n l).length),
      (mapWithIndexFrom g n l).get ⟨i, h⟩ =
        g (n + i) (l.get ⟨i, by rw [← length_mapWithIndexFrom g n l]; exact h⟩) := by
  intro l
  induction l with
  | nil => intro n i h; simp [mapWithIndexFrom] at h
  | cons r rest ih =>
    intro n i h
    cases i with
    | zero => simp [mapWithIndexFrom]
    | succ i' =>
      simp only [mapWithIndexFrom, List.get_cons_succ]
      rw [ih (n + 1)]
      congr 1
      omega

theorem getProp_assignResId (t index : Nat) (r : JVal) :
    getProp (assignResId t index r) "id" = some (.str (mkResId index t)) := by
  simp [assignResId, getProp, getPropList_setPropList_same]

theorem mem_ids_mapWithIndexFrom (t : Nat) :
    ∀ (l : List JVal) (n : Nat) (x : Option JVal),
      x ∈ (mapWithIndexFrom (assignResId t) n l).map (fun r => getProp r "id") →
      ∃ m, n ≤ m ∧ x = some (.str (mkResId m t)) := by
  intro l
  induction l with
  | nil => intro n x hx; simp [mapWithIndexFrom] at hx
  | cons r rest ih =>
    intro n x hx
    simp only [mapWithIndexFrom, List.map_cons, List.mem_cons] at hx
    rcases hx with hx | hx
    · exact ⟨n, le_refl n, by rw [hx, getProp_assignResId]⟩
    · obtain ⟨m, hm, hx⟩ := ih (n + 1) x hx
      exact ⟨m, by omega, hx⟩

theorem nodup_ids_mapWithIndexFrom (t : Nat) :
    ∀ (l : List JVal) (n : Nat),
      ((mapWithIndexFrom (assignResId t) n l).map (fun r => getProp r "id")).Nodup := by
  intro l
  induction l with
  | nil => intro n; simp [mapWithIndexFrom]
  | cons r rest ih =>
    intro n
    simp only [mapWithIndexFrom, List.map_cons, List.nodup_cons]
    refine ⟨fun hmem => ?_, ih (n + 1)⟩
    obtain ⟨m, hm, hx⟩ := mem_ids_mapWithIndexFrom t rest (n + 1) _ hmem
    rw [getProp_assignResId] at hx
    have : n = m := by
      apply mkResId_injective t
      have := Option.some.inj hx
      exact JVal.str.inj this
    omega

/-! ## ContentStage normalization (`generateIgContent`, src/App.tsx 184-193)

```
if (!json.hashtags) json.hashtags = [];
if (!json.comparisonTable) {
  json.comparisonTable = { title: "資訊整理", headers: ["項目", "內容", "備註"], rows: [] };
} else {
  if (!json.comparisonTable.rows) json.comparisonTable.rows = [];
  if (!json.comparisonTable.headers) json.comparisonTable.headers = ["項目", "A", "B"];
}
return json;
```
The module is strict-mode JS, so a property assignment on a primitive
(`null`, boolean, number, string) throws a `TypeError`, which the
surrounding `catch` re-throws; those paths are modelled as `Except.error`. -/

/-- The default comparison table substituted for a missing
`comparisonTable`. -/
def defaultComparisonTable : JVal :=
  .obj [("title", .str "資訊整理"),
        ("headers", .arr [.str "項目", .str "內容", .str "備註"] []),
        ("rows", .arr [] [])]

/-- The default headers substituted for missing `comparisonTable.headers`. -/
def defaultHeadersJ : JVal := .arr [.str "項目", .str "A", .str "B"] []

/-- `if (!json.comparisonTable.rows) json.comparisonTable.rows = [];` -/
def rowsRepaired (ct : JVal) : JVal :=
  if jsTruthy (getProp ct "rows") then ct else setProp ct "rows" (.arr [] [])

/-- The row and header repairs applied to a truthy object-like
`comparisonTable` value:
`if (!...rows) ...rows = []; if (!...headers) ...headers = ["項目","A","B"];` -/
def repairTable (ct : JVal) : JVal :=
  if jsTruthy (getProp (rowsRepaired ct) "headers") then rowsRepaired ct
  else setProp (rowsRepaired ct) "headers" defaultHeadersJ

/-- `if (!json.hashtags) json.hashtags = [];` -/
def hashtagsRepaired (j : JVal) : JVal :=
  if jsTruthy (getProp j "hashtags") then j else setProp j "hashtags" (.arr [] [])

/-- The defensive-default normalization of the parsed post-content JSON.
A non-object top level, or a truthy primitive `comparisonTable`, makes the
strict-mode property assignment throw (`TypeError`), re-thrown by the
`catch`. -/
def normalizePost (j : JVal) : Except String JVal :=
  if isObjLike j then
    match getProp (hashtagsRepaired j) "comparisonTable" with
    | some (.obj f) =>
      .ok (setProp (hashtagsRepaired j) "comparisonTable" (repairTable (.obj f)))
    | some (.arr es ps) =>
      .ok (setProp (hashtagsRepaired j) "comparisonTable" (repairTable (.arr es ps)))
    | some v =>
      if jsTruthy (some v) then .error "TypeError"
      else .ok (setProp (hashtagsRepaired j) "comparisonTable" defaultComparisonTable)
    | none => .ok (setProp (hashtagsRepaired j) "comparisonTable" defaultComparisonTable)
  else .error "TypeError"

/-! ## Lemmas about the post-content repairs -/

theorem jsTruthy_isSome {o : Option JVal} (h : jsTruthy o = true) : o.isSome = true := by
  cases o with
  | none => simp [jsTruthy] at h
  | some v => rfl

theorem isObjLike_hashtagsRepaired (j : JVal) :
    isObjLike (hashtagsRepaired j) = isObjLike j := by
  unfold hashtagsRepaired
  split
  · rfl
  · exact isObjLike_setProp j "hashtags" (.arr [] [])

theorem jsTruthy_hashtagsRepaired (j : JVal) (hobj : isObjLike j = true) :
    jsTruthy (getProp (hashtagsRepaired j) "hashtags") = true := by
  unfold hashtagsRepaired
  split
  · assumption
  · rw [getProp_setProp_same j "hashtags" _ hobj]; rfl

theorem getProp_hashtagsRepaired_ne (j : JVal) (k : String) (h : k ≠ "hashtags") :
    getProp (hashtagsRepaired j) k = getProp j k := by
  unfold hashtagsRepaired
  split
  · rfl
  · exact getProp_setProp_ne j "hashtags" k _ (fun he => h he.symm)

theorem isObjLike_rowsRepaired (ct : JVal) :
    isObjLike (rowsRepaired ct) = isObjLike ct := by
  unfold rowsRepaired
  split
  · rfl
  · exact isObjLike_setProp ct "rows" (.arr [] [])

theorem isObjLike_repairTable (ct : JVal) :
    isObjLike (repairTable ct) = isObjLike ct := by
  unfold repairTable
  split
  · exact isObjLike_rowsRepaired ct
  · rw [isObjLike_setProp]; exact isObjLike_rowsRepaired ct

theorem jsTruthy_rowsRepaired_rows (ct : JVal) (hobj : isObjLike ct = true) :
    jsTruthy (getProp (rowsRepaired ct) "rows") = true := by
  unfold rowsRepaired
  split
  · assumption
  · rw [getProp_setProp_same ct "rows" _ hobj]; rfl

theorem jsTruthy_repairTable_rows (ct : JVal) (hobj : isObjLike ct = true) :
    jsTruthy (getProp (repairTable ct) "rows") = true := by
  unfold repairTable
  split
  · exact jsTruthy_rowsRepaired_rows ct hobj
  · rw [getProp_setProp_ne _ "headers" "rows" _ (by decide)]
    exact jsTruthy_rowsRepaired_rows ct hobj

theorem jsTruthy_repairTable_headers (ct : JVal) (hobj : isObjLike ct = true) :
    jsTruthy (getProp (repairTable ct) "headers") = true := by
  unfold repairTable
  split
  · assumption
  · rw [getProp_setProp_same _ "headers" _ (by rw [isObjLike_rowsRepaired]; exact hobj)]
    rfl

theorem rowsRepaired_of_truthy (ct : JVal)
    (h : jsTruthy (getProp ct "rows") = true) : rowsRepaired ct = ct := by
  unfold rowsRepaired
  rw [if_pos h]

theorem repairTable_idem (ct : JVal) (hobj : isObjLike ct = true) :
    repairTable (repairTable ct) = repairTable ct := by
  have hrr : rowsRepaired (repairTable ct) = repairTable ct :=
    rowsRepaired_of_truthy _ (jsTruthy_repairTable_rows ct hobj)
  show (if jsTruthy (getProp (rowsRepaired (repairTable ct)) "headers") then
          rowsRepaired (repairTable ct)
        else setProp (rowsRepaired (repairTable ct)) "headers" defaultHeadersJ) =
       repairTable ct
  rw [hrr, if_pos (jsTruthy_repairTable_headers ct hobj)]

theorem repairTable_default : repairTable defaultComparisonTable = defaultComparisonTable := by
  rfl

theorem getProp_repairTable_rows_missing (ct : JVal) (hobj : isObjLike ct = true)
    (h : getProp ct "rows" = none) :
    getProp (repairTable ct) "rows" = some (.arr [] []) := by
  have h1 : rowsRepaired ct = setProp ct "rows" (.arr [] []) := by
    unfold rowsRepaired
    rw [h]
    rfl
  unfold repairTable
  split
  · rw [h1, getProp_setProp_same ct "rows" _ hobj]
  · rw [getProp_setProp_ne _ "headers" "rows" _ (by decide), h1,
      getProp_setProp_same ct "rows" _ hobj]

theorem getProp_repairTable_headers_missing (ct : JVal) (hobj : isObjLike ct = true)
    (h : getProp ct "headers" = none) :
    getProp (repairTable ct) "headers" = some defaultHeadersJ := by
  have h1 : getProp (rowsRepaired ct) "headers" = none := by
    unfold rowsRepaired
    split
    · exact h
    · rw [getProp_setProp_ne _ "rows" "headers" _ (by decide)]; exact h
  unfold repairTable
  rw [h1]
  show getProp (setProp (rowsRepaired ct) "headers" defaultHeadersJ) "headers" = _
  rw [getProp_setProp_same _ "headers" _ (by rw [isObjLike_rowsRepaired]; exact hobj)]

/-- Every successful `normalizePost` result is the hashtags-repaired input
with `comparisonTable` set to either the repair of a truthy object-like
table or the default table. -/
theorem normalizePost_ok_cases (j : JVal) (r : JVal) (h : normalizePost j = .ok r) :
    isObjLike j = true ∧
    ∃ X, r = setProp (hashtagsRepaired j) "comparisonTable" X ∧
      ((∃ ct, getProp (hashtagsRepaired j) "comparisonTable" = some ct ∧
          isObjLike ct = true ∧ X = repairTable ct) ∨
       (jsTruthy (getProp (hashtagsRepaired j) "comparisonTable") = false ∧
          X = defaultComparisonTable)) := by
  by_cases hobj : isObjLike j = true
  · refine ⟨hobj, ?_⟩
    simp only [normalizePost, if_pos hobj] at h
    split at h
    · rename_i f heq
      exact ⟨_, (Except.ok.inj h).symm, .inl ⟨.obj f, heq, rfl, rfl⟩⟩
    · rename_i es ps heq
      exact ⟨_, (Except.ok.inj h).symm, .inl ⟨.arr es ps, heq, rfl, rfl⟩⟩
    · split at h
      · cases h
      · rename_i v hno hna heq hfal
        refine ⟨_, (Except.ok.inj h).symm, .inr ⟨?_, rfl⟩⟩
        rw [heq]
        simpa using hfal
    · rename_i heq
      refine ⟨_, (Except.ok.inj h).symm, .inr ⟨?_, rfl⟩⟩
      rw [heq]
      rfl
  · simp only [normalizePost, if_neg hobj] at h
    cases h

/-! ## Claim theorems: normalization -/

/-- Whether a possibly-`undefined` value is an array (`Array.isArray`). -/
def isArrOption : Option JVal → Bool
  | some (.arr _ _) => true
  | _ => false

theorem recoverArray_results (f : List (String × JVal)) (es : List JVal)
    (ps : List (String × JVal)) (h : getPropList f "results" = some (.arr es ps)) :
    recoverArray (.obj f) = es := by
  simp only [recoverArray]
  rw [h]

theorem recoverArray_items (f : List (String × JVal)) (es : List JVal)
    (ps : List (String × JVal)) (hres : isArrOption (getPropList f "results") = false)
    (h : getPropList f "items" = some (.arr es ps)) :
    recoverArray (.obj f) = es := by
  simp only [recoverArray]
  rw [h]
  cases hr : getPropList f "results" with
  | none => rfl
  | some v => cases v <;> simp_all [isArrOption]

theorem recoverArray_data (f : List (String × JVal)) (es : List JVal)
    (ps : List (String × JVal)) (hres : isArrOption (getPropList f "results") = false)
    (hitems : isArrOption (getPropList f "items") = false)
    (h : getPropList f "data" = some (.arr es ps)) :
    recoverArray (.obj f) = es := by
  simp only [recoverArray]
  rw [h]
  cases hr : getPropList f "results" with
  | none =>
    cases hi : getPropList f "items" with
    | none => rfl
    | some v => cases v <;> simp_all [isArrOption]
  | some v =>
    cases v <;> simp_all [isArrOption] <;>
      (cases hi : getPropList f "items" with
       | none => rfl
       | some w => cases w <;> simp_all [isArrOption])

theorem recoverArray_none (f : List (String × JVal))
    (hres : isArrOption (getPropList f "results") = false)
    (hitems : isArrOption (getPropList f "items") = false)
    (hdata : isArrOption (getPropList f "data") = false) :
    recoverArray (.obj f) = [] := by
  simp only [recoverArray]
  cases hr : getPropList f "results" with
  | none =>
    cases hi : getPropList f "items" with
    | none =>
      cases hd : getPropList f "data" with
      | none => rfl
      | some v => cases v <;> simp_all [isArrOption]
    | some v =>
      cases v <;> simp_all [isArrOption] <;>
        (cases hd : getPropList f "data" with
         | none => rfl
         | some w => cases w <;> simp_all [isArrOption])
  | some v =>
    cases v <;> simp_all [isArrOption] <;>
      (cases hi : getPropList f "items" with
       | none =>
         cases hd : getPropList f "data" with
         | none => rfl
         | some w => cases w <;> simp_all [isArrOption]
       | some w =>
         cases w <;> simp_all [isArrOption] <;>
           (cases hd : getPropList f "data" with
            | none => rfl
            | some u => cases u <;> simp_all [isArrOption]))

/-- C4.  Search-shape normalization: when the parsed top-level value is
not an array, an array is recovered from the keys `results`, `items`,
`data` in exactly that priority order (the first key holding an array
wins); when no array is recoverable anywhere the result is the empty
list, not an error; and in the full search path an error is raised
exactly when `JSON.parse` itself failed — every parsed value normalizes
successfully. -/
theorem search_shape_recovery_priority :
    (∀ f es ps, getPropList f "results" = some (.arr es ps) →
      recoverArray (.obj f) = es) ∧
    (∀ f es ps, isArrOption (getPropList f "results") = false →
      getPropList f "items" = some (.arr es ps) → recoverArray (.obj f) = es) ∧
    (∀ f es ps, isArrOption (getPropList f "results") = false →
      isArrOption (getPropList f "items") = false →
      getPropList f "data" = some (.arr es ps) → recoverArray (.obj f) = es) ∧
    (∀ f, isArrOption (getPropList f "results") = false →
      isArrOption (getPropList f "items") = false →
      isArrOption (getPropList f "data") = false → recoverArray (.obj f) = []) ∧
    (recoverArray .null = [] ∧ (∀ b, recoverArray (.bool b) = []) ∧
      (∀ q, recoverArray (.num q) = []) ∧ (∀ s, recoverArray (.str s) = [])) ∧
    (∀ t e, searchResultsOf t (.error e) = .error e) ∧
    (∀ t j, searchResultsOf t (.ok j) = .ok (normalizeSearch t j)) :=
  ⟨recoverArray_results, recoverArray_items, recoverArray_data, recoverArray_none,
    ⟨rfl, fun _ => rfl, fun _ => rfl, fun _ => rfl⟩, fun _ _ => rfl, fun _ _ => rfl⟩

/-- Witness for C4 at concrete inputs: `{"results": 3, "items": [true]}`
recovers the `items` array (the non-array `results` key is skipped),
`{"foo": 1}` recovers nothing and yields `[]`, and a parse error
propagates unchanged. -/
theorem search_shape_recovery_priority_witness :
    recoverArray (.obj [("results", .num 3), ("items", .arr [.bool true] [])]) =
      [.bool true] ∧
    recoverArray (.obj [("foo", .num 1)]) = [] ∧
    searchResultsOf 7 (.error "SyntaxError") = .error "SyntaxError" :=
  ⟨search_shape_recovery_priority.2.1
      [("results", .num 3), ("items", .arr [.bool true] [])] [.bool true] []
      rfl rfl,
    search_shape_recovery_priority.2.2.2.1 [("foo", .num 1)] rfl rfl rfl,
    search_shape_recovery_priority.2.2.2.2.2.1 7 "SyntaxError"⟩

/-- C6.  For an object whose `results` key holds an array of N elements,
search normalization yields exactly N items; the generated ids are
pairwise distinct; and every element's `id` is the locally generated
`res-${index}-${Date.now()}` string, regardless of any backend-supplied
`id`. -/
theorem search_results_count_distinct_ids (t : Nat) (f : List (String × JVal))
    (es : List JVal) (ps : List (String × JVal))
    (h : getPropList f "results" = some (.arr es ps)) :
    (normalizeSearch t (.obj f)).length = es.length ∧
    ((normalizeSearch t (.obj f)).map (fun r => getProp r "id")).Nodup ∧
    ∀ (i : Nat) (hi : i < (normalizeSearch t (.obj f)).length),
      getProp ((normalizeSearch t (.obj f)).get ⟨i, hi⟩) "id" =
        some (.str (mkResId i t)) := by
  have hrec : recoverArray (.obj f) = es := recoverArray_results f es ps h
  unfold normalizeSearch
  rw [hrec]
  refine ⟨length_mapWithIndexFrom _ 0 es, nodup_ids_mapWithIndexFrom t es 0, ?_⟩
  intro i hi
  rw [get_mapWithIndexFrom (assignResId t) es 0 i hi, Nat.zero_add,
    getProp_assignResId]

/-- Witness for C6: two well-formed items (the second even carries a
backend `id`, which is overwritten) produce two results with the two
generated ids. -/
theorem search_results_count_distinct_ids_witness :
    (normalizeSearch 5 (.obj [("results",
        .arr [.obj [("title", .str "a")], .obj [("id", .str "backend")]] [])])).length = 2 ∧
    ((normalizeSearch 5 (.obj [("results",
        .arr [.obj [("title", .str "a")], .obj [("id", .str "backend")]] [])])).map
      (fun r => getProp r "id")).Nodup :=
  have h := search_results_count_distinct_ids 5
    [("results", .arr [.obj [("title", .str "a")], .obj [("id", .str "backend")]] [])]
    [.obj [("title", .str "a")], .obj [("id", .str "backend")]] [] rfl
  ⟨h.1, h.2.1⟩

/-- C10.  Search normalization is a frame on everything but `id`: for an
object element, every property other than `id` (present or absent) passes
through to the result unchanged, and `id` is set to the generated value. -/
theorem search_element_frame (t i : Nat) (f : List (String × JVal)) :
    (∀ k, k ≠ "id" → getProp (assignResId t i (.obj f)) k = getPropList f k) ∧
    getProp (assignResId t i (.obj f)) "id" = some (.str (mkResId i t)) := by
  constructor
  · intro k hk
    show getPropList (setPropList f "id" (.str (mkResId i t))) k = getPropList f k
    exact getPropList_setPropList_ne f "id" k _ (fun he => hk he.symm)
  · exact getProp_assignResId t i (.obj f)

/-- Witness for C10: an element with `title` and a stale backend `id`
keeps `title` and a missing `summary` stays missing, while `id` is
replaced. -/
theorem search_element_frame_witness :
    getProp (assignResId 9 0 (.obj [("title", .str "T"), ("id", .str "old")])) "title" =
      some (.str "T") ∧
    getProp (assignResId 9 0 (.obj [("title", .str "T"), ("id", .str "old")])) "summary" =
      none ∧
    getProp (assignResId 9 0 (.obj [("title", .str "T"), ("id", .str "old")])) "id" =
      some (.str (mkResId 0 9)) :=
  have h := search_element_frame 9 0 [("title", .str "T"), ("id", .str "old")]
  ⟨(h.1 "title" (by decide)).trans rfl, (h.1 "summary" (by decide)).trans rfl, h.2⟩

/-- C5.  Post-content normalization repairs missing fields to the
documented defaults, each independently: missing `hashtags` becomes `[]`;
missing `comparisonTable` becomes the default table; missing
`comparisonTable.rows` becomes `[]`; missing `comparisonTable.headers`
becomes `["項目","A","B"]`; and in every successfully returned value none
of these fields is absent. -/
theorem post_shape_defaults (f : List (String × JVal)) (r : JVal)
    (h : normalizePost (.obj f) = .ok r) :
    (getPropList f "hashtags" = none → getProp r "hashtags" = some (.arr [] [])) ∧
    (getPropList f "comparisonTable" = none →
      getProp r "comparisonTable" = some defaultComparisonTable) ∧
    (∀ g, getPropList f "comparisonTable" = some (.obj g) → getPropList g "rows" = none →
      ∃ ct, getProp r "comparisonTable" = some ct ∧
        getProp ct "rows" = some (.arr [] [])) ∧
    (∀ g, getPropList f "comparisonTable" = some (.obj g) →
      getPropList g "headers" = none →
      ∃ ct, getProp r "comparisonTable" = some ct ∧
        getProp ct "headers" = some defaultHeadersJ) ∧
    ((getProp r "hashtags").isSome = true ∧
      ∃ ct, getProp r "comparisonTable" = some ct ∧
        (getProp ct "rows").isSome = true ∧ (getProp ct "headers").isSome = true) := by
  obtain ⟨hobj, X, hr, hcases⟩ := normalizePost_ok_cases (.obj f) r h
  have hobj1 : isObjLike (hashtagsRepaired (.obj f)) = true := by
    rw [isObjLike_hashtagsRepaired]; exact hobj
  have hctX : getProp r "comparisonTable" = some X := by
    rw [hr]; exact getProp_setProp_same _ "comparisonTable" X hobj1
  have hXfacts : isObjLike X = true ∧
      (getProp X "rows").isSome = true ∧ (getProp X "headers").isSome = true := by
    rcases hcases with ⟨ct, hct, hcto, hX⟩ | ⟨hfal, hX⟩
    · subst hX
      exact ⟨by rw [isObjLike_repairTable]; exact hcto,
        jsTruthy_isSome (jsTruthy_repairTable_rows ct hcto),
        jsTruthy_isSome (jsTruthy_repairTable_headers ct hcto)⟩
    · subst hX
      exact ⟨rfl, rfl, rfl⟩
  refine ⟨?_, ?_, ?_, ?_, ?_, X, hctX, hXfacts.2.1, hXfacts.2.2⟩
  · intro hmiss
    rw [hr, getProp_setProp_ne _ "comparisonTable" "hashtags" _ (by decide)]
    show getProp (hashtagsRepaired (.obj f)) "hashtags" = some (.arr [] [])
    unfold hashtagsRepaired
    have : getProp (.obj f) "hashtags" = none := hmiss
    rw [this]
    show getProp (setProp (.obj f) "hashtags" (.arr [] [])) "hashtags" = some (.arr [] [])
    exact getProp_setProp_same _ "hashtags" _ hobj
  · intro hmiss
    have hctr : getProp (hashtagsRepaired (.obj f)) "comparisonTable" = none := by
      rw [getProp_hashtagsRepaired_ne _ "comparisonTable" (by decide)]
      exact hmiss
    rcases hcases with ⟨ct, hct, hcto, hX⟩ | ⟨hfal, hX⟩
    · rw [hctr] at hct; cases hct
    · rw [hctX, hX]
  · intro g hct hrows
    have hctr : getProp (hashtagsRepaired (.obj f)) "comparisonTable" = some (.obj g) := by
      rw [getProp_hashtagsRepaired_ne _ "comparisonTable" (by decide)]
      exact hct
    rcases hcases with ⟨ct, hct2, hcto, hX⟩ | ⟨hfal, hX⟩
    · rw [hctr] at hct2
      cases hct2
      refine ⟨X, hctX, ?_⟩
      rw [hX]
      exact getProp_repairTable_rows_missing _ rfl hrows
    · rw [hctr] at hfal
      simp [jsTruthy] at hfal
  · intro g hct hheads
    have hctr : getProp (hashtagsRepaired (.obj f)) "comparisonTable" = some (.obj g) := by
      rw [getProp_hashtagsRepaired_ne _ "comparisonTable" (by decide)]
      exact hct
    rcases hcases with ⟨ct, hct2, hcto, hX⟩ | ⟨hfal, hX⟩
    · rw [hctr] at hct2
      cases hct2
      refine ⟨X, hctX, ?_⟩
      rw [hX]
      exact getProp_repairTable_headers_missing _ rfl hheads
    · rw [hctr] at hfal
      simp [jsTruthy] at hfal
  · rw [hr, getProp_setProp_ne _ "comparisonTable" "hashtags" _ (by decide)]
    exact jsTruthy_isSome (jsTruthy_hashtagsRepaired _ hobj)

/-- Witness for C5: a parsed value with only a `headline` gets all four
defaults applied. -/
theorem post_shape_defaults_witness :
    getProp (.obj [("headline", .str "H"), ("hashtags", .arr [] []),
      ("comparisonTable", defaultComparisonTable)]) "hashtags" = some (.arr [] []) ∧
    getProp (.obj [("headline", .str "H"), ("hashtags", .arr [] []),
      ("comparisonTable", defaultComparisonTable)]) "comparisonTable" =
      some defaultComparisonTable :=
  have h := post_shape_defaults [("headline", .str "H")]
    (.obj [("headline", .str "H"), ("hashtags", .arr [] []),
      ("comparisonTable", defaultComparisonTable)]) rfl
  ⟨h.1 rfl, h.2.1 rfl⟩

theorem assignResId_idem (t n : Nat) (r : JVal) :
    assignResId t n (assignResId t n r) = assignResId t n r := by
  show JVal.obj (setPropList (ownProps (assignResId t n r)) "id" _) = _
  show JVal.obj (setPropList (setPropList (ownProps r) "id" _) "id" _) = _
  rw [setPropList_setPropList_same]
  rfl

theorem mapWithIndexFrom_assignResId_idem (t : Nat) :
    ∀ (l : List JVal) (n : Nat),
      mapWithIndexFrom (assignResId t) n (mapWithIndexFrom (assignResId t) n l) =
        mapWithIndexFrom (assignResId t) n l := by
  intro l
  induction l with
  | nil => intro n; rfl
  | cons r rest ih =>
    intro n
    show (assignResId t n (assignResId t n r)) ::
        mapWithIndexFrom (assignResId t) (n + 1) (mapWithIndexFrom (assignResId t) (n + 1) rest) =
      _
    rw [assignResId_idem, ih]
    rfl

theorem normalizePost_ok_fix (j r : JVal) (h : normalizePost j = .ok r) :
    normalizePost r = .ok r := by
  obtain ⟨hobj, X, hr, hcases⟩ := normalizePost_ok_cases j r h
  have hobj1 : isObjLike (hashtagsRepaired j) = true := by
    rw [isObjLike_hashtagsRepaired]; exact hobj
  have hobjr : isObjLike r = true := by
    rw [hr, isObjLike_setProp]; exact hobj1
  have hht : jsTruthy (getProp r "hashtags") = true := by
    rw [hr, getProp_setProp_ne _ "comparisonTable" "hashtags" _ (by decide)]
    exact jsTruthy_hashtagsRepaired j hobj
  have hhrr : hashtagsRepaired r = r := by
    unfold hashtagsRepaired
    rw [if_pos hht]
  have hctX : getProp r "comparisonTable" = some X := by
    rw [hr]; exact getProp_setProp_same _ "comparisonTable" X hobj1
  have hXobj : isObjLike X = true := by
    rcases hcases with ⟨ct, hct, hcto, hX⟩ | ⟨hfal, hX⟩
    · rw [hX, isObjLike_repairTable]; exact hcto
    · rw [hX]; rfl
  have hXfix : repairTable X = X := by
    rcases hcases with ⟨ct, hct, hcto, hX⟩ | ⟨hfal, hX⟩
    · rw [hX]; exact repairTable_idem ct hcto
    · rw [hX]; exact repairTable_default
  have hsetr : setProp r "comparisonTable" X = r := setProp_self r "comparisonTable" X hctX
  cases X with
  | obj g =>
    simp only [normalizePost, if_pos hobjr, hhrr, hctX]
    rw [hXfix, hsetr]
  | arr es ps =>
    simp only [normalizePost, if_pos hobjr, hhrr, hctX]
    rw [hXfix, hsetr]
  | null => cases hXobj
  | bool b => cases hXobj
  | num q => cases hXobj
  | str s => cases hXobj

/-- C8.  Normalization is idempotent for both shapes, with the
`Date.now()` timestamp modelled as an explicit parameter held fixed:
re-normalizing the search normalizer's output array reproduces it
unchanged, and a second post-content normalization (sequenced through the
error monad of strict-mode `TypeError`s) is a no-op. -/
theorem normalization_idempotent :
    (∀ (t : Nat) (j : JVal),
      normalizeSearch t (.arr (normalizeSearch t j) []) = normalizeSearch t j) ∧
    ∀ j : JVal, (normalizePost j).bind normalizePost = normalizePost j := by
  constructor
  · intro t j
    show mapWithIndexFrom (assignResId t) 0 (recoverArray (.arr (normalizeSearch t j) [])) =
      normalizeSearch t j
    show mapWithIndexFrom (assignResId t) 0 (normalizeSearch t j) = normalizeSearch t j
    exact mapWithIndexFrom_assignResId_idem t (recoverArray j) 0
  · intro j
    cases h : normalizePost j with
    | error e => rfl
    | ok r => simpa [Except.bind] using normalizePost_ok_fix j r h

/-! ## IllustrationStage (`generateCuteImage`, src/App.tsx 200-249)

The backend call either throws or yields a response object.  The code
walks `response.candidates[0].content.parts` looking for the first part
with `inlineData`; any thrown error — including the `TypeError`s from the
unguarded member accesses and the explicit `throw new Error(...)` when no
image data was found — is swallowed by the `catch`, which returns the
fixed 1x1 transparent PNG data URL. -/

/-- One entry of `content.parts`; `inlineData`, when present, carries its
base64 `data` string. -/
structure ImgPart where
  inlineData : Option String

/-- `candidates[0].content`, whose `parts` may be absent. -/
structure ImgContent where
  parts : Option (List ImgPart)

/-- One entry of `response.candidates`; `content` may be absent. -/
structure ImgCandidate where
  content : Option ImgContent

/-- The outcome of the image-model call: the promise rejected (`thrown`),
or it resolved with a response whose `candidates` may be absent. -/
inductive ImgOutcome where
  | thrown
  | resp (candidates : Option (List ImgCandidate))

/-- The fixed 1x1 transparent PNG placeholder returned on any failure
(src/App.tsx line 247). -/
def placeholderPng : String :=
  "data:image/png;base64,iVBORw0KGgoAAAANSUhEUgAAAAEAAAABCAQAAAC1HAwCAAAAC0lEQVR42mNkYAAAAAYAAjCB0C8AAAAASUVORK5CYII="

/-- The `for (const part of parts) { if (part.inlineData) { ...; break } }`
loop: the `data` of the first part carrying `inlineData`. -/
def firstInlineData : List ImgPart → Option String
  | [] => none
  | p :: rest =>
    match p.inlineData with
    | some d => some d
    | none => firstInlineData rest

/-- `generateCuteImage` over the embedded outcome.  Every branch that the
JS `catch` reaches (rejection, `TypeError` on `candidates[0]` of an empty
array or on `.content.parts` of `undefined`, or the explicit throw when
`base64Image` stayed empty) returns the placeholder. -/
def generateCuteImage : ImgOutcome → String
  | .thrown => placeholderPng
  | .resp none => placeholderPng
  | .resp (some []) => placeholderPng
  | .resp (some (c :: _)) =>
    match c.content with
    | none => placeholderPng
    | some cont =>
      match cont.parts with
      | none => placeholderPng
      | some parts =>
        match firstInlineData parts with
        | some d => if d = "" then placeholderPng else "data:image/png;base64," ++ d
        | none => placeholderPng

/-- Whether the outcome carries no usable inline image data: a thrown
backend error, absent/empty `candidates`, absent `content` or `parts`, or
parts whose first `inlineData` is absent or empty. -/
def noImageData : ImgOutcome → Bool
  | .thrown => true
  | .resp none => true
  | .resp (some []) => true
  | .resp (some (c :: _)) =>
    match c.content with
    | none => true
    | some cont =>
      match cont.parts with
      | none => true
      | some parts =>
        match firstInlineData parts with
        | some d => d = ""
        | none => true

/-- C3.  `generateCuteImage` never fails outward: it is a total function
of the backend outcome, always returning either the fixed placeholder or
a data URL built from the recovered base64 data; and on every failure
outcome — thrown error, missing candidates, or parts without inline image
data — it returns exactly the fixed 1x1 transparent PNG placeholder. -/
theorem illustration_never_fails (o : ImgOutcome) :
    (generateCuteImage o = placeholderPng ∨
      ∃ d, d ≠ "" ∧ generateCuteImage o = "data:image/png;base64," ++ d) ∧
    (noImageData o = true → generateCuteImage o = placeholderPng) := by
  cases o with
  | thrown => exact ⟨.inl rfl, fun _ => rfl⟩
  | resp cands =>
    cases cands with
    | none => exact ⟨.inl rfl, fun _ => rfl⟩
    | some l =>
      cases l with
      | nil => exact ⟨.inl rfl, fun _ => rfl⟩
      | cons c rest =>
        cases hc : c.content with
        | none =>
          constructor
          · left
            simp [generateCuteImage, hc]
          · intro _
            simp [generateCuteImage, hc]
        | some cont =>
          cases hp : cont.parts with
          | none =>
            constructor
            · left
              simp [generateCuteImage, hc, hp]
            · intro _
              simp [generateCuteImage, hc, hp]
          | some parts =>
            cases hd : firstInlineData parts with
            | none =>
              constructor
              · left
                simp [generateCuteImage, hc, hp, hd]
              · intro _
                simp [generateCuteImage, hc, hp, hd]
            | some d =>
              by_cases hde : d = ""
              · constructor
                · left
                  simp [generateCuteImage, hc, hp, hd, hde]
                · intro _
                  simp [generateCuteImage, hc, hp, hd, hde]
              · constructor
                · right
                  exact ⟨d, hde, by simp [generateCuteImage, hc, hp, hd, hde]⟩
                · intro hno
                  simp [noImageData, hc, hp, hd] at hno
                  exact absurd hno hde

/-- Witness for C3: a thrown backend error yields exactly the
placeholder. -/
theorem illustration_never_fails_witness :
    generateCuteImage .thrown = placeholderPng :=
  (illustration_never_fails .thrown).2 rfl

/-! ## Clipboard text (`handleCopyCaption`, src/App.tsx 578-604)

```
const tableText = (table && rows.length > 0) ? `
📊 ${table.title || '比較表'}
${headers[0] || '-'} | ${headers[1] || '-'} | ${headers[2] || '-'}
${rows.map(row => `${row.aspect} | ${row.value1} | ${row.value2}`).join('\n')}
    `.trim() : '';

const textToCopy = `
${content.headline || ''}

${content.caption || ''}

${tableText}

${hashtags.map(tag => `#${tag}`).join(' ')}
    `.trim();
```
-/

/-- One row of the comparison table (src/App.tsx 16-20). -/
structure TableRow where
  aspect : String
  value1 : String
  value2 : String

/-- The typed comparison table of `IgPostContent` (src/App.tsx 26-30).
The TS type declares exactly three headers; the code reads
`headers[0..2]` with a `|| '-'` fallback, so headers are kept as a list
and read with an empty-string default (JS `undefined || '-'` and
`"" || '-'` coincide). -/
structure ComparisonTable where
  title : String
  headers : List String
  rows : List TableRow

/-- The structured post content (src/App.tsx 22-31). -/
structure IgPostContent where
  headline : String
  caption : String
  hashtags : List String
  comparisonTable : ComparisonTable

/-- The whitespace class trimmed by JS `String.prototype.trim` (the ASCII
part, which covers every character the templates produce). -/
def jsWhitespace (c : Char) : Bool :=
  c = ' ' || c = '\t' || c = '\n' || c = '\r' || c = '\x0b' || c = '\x0c'

/-- JS `String.prototype.trim`: strip leading and trailing whitespace. -/
def jsTrim (s : String) : String :=
  ⟨((s.data.dropWhile jsWhitespace).reverse.dropWhile jsWhitespace).reverse⟩

/-- JS `x || fallback` on strings: the empty string is falsy. -/
def orElseStr (s fallback : String) : String :=
  if s = "" then fallback else s

/-- The plain-text string built by `handleCopyCaption` and handed to the
clipboard. -/
def handleCopyCaptionText (content : IgPostContent) : String :=
  let table := content.comparisonTable
  let rows := table.rows
  let hashtags := content.hashtags
  let headers := table.headers
  let tableText :=
    if rows.length > 0 then
      jsTrim ("\n📊 " ++ orElseStr table.title "比較表" ++ "\n" ++
        orElseStr (headers.getD 0 "") "-" ++ " | " ++
        orElseStr (headers.getD 1 "") "-" ++ " | " ++
        orElseStr (headers.getD 2 "") "-" ++ "\n" ++
        String.intercalate "\n"
          (rows.map fun row => row.aspect ++ " | " ++ row.value1 ++ " | " ++ row.value2) ++
        "\n    ")
    else ""
  jsTrim ("\n" ++ content.headline ++ "\n\n" ++ content.caption ++ "\n\n" ++
    tableText ++ "\n\n" ++
    String.intercalate " " (hashtags.map fun tag => "#" ++ tag) ++ "\n    ")

/-- The concrete post content of the claim: headline `"H"`, caption
`"C"`, hashtags `["a","b"]`, a comparison table with empty rows. -/
def copyClaimContent : IgPostContent :=
  { headline := "H", caption := "C", hashtags := ["a", "b"],
    comparisonTable := { title := "T", headers := ["x", "y", "z"], rows := [] } }

/-- C2, counterexample.  For the claim's input the produced string is not
`"H\n\nC\n\n\n#a #b"`: the template keeps the blank line before and after
the (empty) table text, so four newlines separate the caption from the
hashtags, not three. -/
theorem copy_caption_claim_false :
    handleCopyCaptionText copyClaimContent ≠ "H\n\nC\n\n\n#a #b" := by
  decide

/-- C2, amended.  With the same input the produced string is exactly
`"H\n\nC\n\n\n\n#a #b"` — headline, blank line, caption, then the
two blank-line separators surrounding the omitted table block (four
newlines in all), then the space-joined `#hashtag` tokens; no table block
is rendered when rows is empty.  The equality holds for every title and
header list. -/
theorem copy_caption_empty_rows (t : String) (hs : List String) :
    handleCopyCaptionText
      { headline := "H", caption := "C", hashtags := ["a", "b"],
        comparisonTable := { title := t, headers := hs, rows := [] } } =
      "H\n\nC\n\n\n\n#a #b" := by
  rfl

/-- Witness for C2's amended theorem at the claim's concrete input. -/
theorem copy_caption_empty_rows_witness :
    handleCopyCaptionText copyClaimContent = "H\n\nC\n\n\n\n#a #b" :=
  copy_caption_empty_rows "T" ["x", "y", "z"]

/-! ## RenderEngine table layout (`generateTableImage`, src/App.tsx 438-544)

```
const size = 1080;
const startX = 60;
const startY = 200;
const rowHeight = (size - startY - 100) / (rows.length + 1); // Dynamic height
...
rows.forEach((row, i) => {
  const yPos = startY + 120 + (i * 140); // Fixed spacing approximation
  ...
});
```
`rowHeight` is computed but never read again; the drawn baseline of row
`i` uses the fixed 140-unit spacing. -/

/-- The square canvas side (`size = 1080`). -/
def canvasSize : ℕ := 1080

/-- The y coordinate where the table area starts (`startY = 200`). -/
def tableStartY : ℕ := 200

/-- The bottom margin reserved below the rows (the literal `100` in
`size - startY - 100`). -/
def tableFooterMargin : ℕ := 100

/-- The computed-but-unused dynamic row height
`(size - startY - 100) / (rows.length + 1)` (JS float division, modelled
exactly over the rationals). -/
def rowHeight (rowCount : ℕ) : ℚ :=
  ((canvasSize : ℚ) - tableStartY - tableFooterMargin) / (rowCount + 1)

/-- The drawn baseline of row `i`: `yPos = startY + 120 + (i * 140)`. -/
def rowBaselineY (i : ℕ) : ℕ := tableStartY + 120 + i * 140

/-- C1, counterexample.  For a table with 10 rows (one of the claim's row
counts) the vertical slot actually assigned to each drawn row is the
fixed 140 units, which differs from
`(canvasSize - headerAreaHeight - footerMargin) / (rowCount + 1) = 780/11`,
and the ten slots sum to 1400, not to the available 780 units. -/
theorem table_row_slot_claim_false :
    ((rowBaselineY 1 : ℚ) - rowBaselineY 0 = 140) ∧
    rowHeight 10 ≠ ((rowBaselineY 1 : ℚ) - rowBaselineY 0) ∧
    (10 : ℚ) * ((rowBaselineY 1 : ℚ) - rowBaselineY 0) ≠
      (canvasSize : ℚ) - tableStartY - tableFooterMargin := by
  refine ⟨by norm_num [rowBaselineY, tableStartY], ?_, ?_⟩
  · norm_num [rowHeight, rowBaselineY, canvasSize, tableStartY, tableFooterMargin]
  · norm_num [rowBaselineY, canvasSize, tableStartY, tableFooterMargin]

/-- C1, amended.  `generateTableImage` computes
`rowHeight = (canvasSize - headerAreaHeight - footerMargin) / (rowCount + 1)`
but never uses it: every row is drawn at the fixed baseline
`startY + 120 + i * 140`, so consecutive rows are always 140 units apart
independently of the row count, and the rows fill the available 780
vertical units only when `140 * rowCount` happens to equal 780. -/
theorem table_row_fixed_spacing (n i : ℕ) :
    rowHeight n = 780 / ((n : ℚ) + 1) ∧
    rowBaselineY i = 320 + i * 140 ∧
    (rowBaselineY (i + 1) : ℤ) - rowBaselineY i = 140 := by
  refine ⟨?_, ?_, ?_⟩
  · norm_num [rowHeight, canvasSize, tableStartY, tableFooterMargin]
  · simp [rowBaselineY, tableStartY]
  · simp only [rowBaselineY, tableStartY]
    push_cast
    ring

/-! ## RenderEngine text wrapping (`wrapText`, src/App.tsx 471-489)

```
const words = text.split(''); // Split by char for CJK
let line = '';
for (let n = 0; n < words.length; n++) {
  const testLine = line + words[n];
  const metrics = ctx.measureText(testLine);
  const testWidth = metrics.width;
  if (testWidth > maxWidth && n > 0) {
    ctx.fillText(line, x, currentY);
    line = words[n];
    currentY += lineHeight;
  } else {
    line = testLine;
  }
}
ctx.fillText(line, x, currentY);
```
The canvas text metric is modelled as an arbitrary per-character advance
width `cw`, with `measureText` the sum of the advances. -/

/-- The modelled `ctx.measureText`: the summed advance widths of the
characters under a given character-width assignment. -/
def measuredWidth (cw : Char → ℚ) (s : String) : ℚ := (s.data.map cw).sum

/-- The loop of `wrapText`, returning every line passed to
`ctx.fillText` in drawing order.  `n` is the loop index, `line` the
running line. -/
def wrapTextLoop (cw : Char → ℚ) (maxWidth : ℚ) : List Char → ℕ → String → List String
  | [], _, line => [line]
  | c :: rest, n, line =>
    if measuredWidth cw (line.push c) > maxWidth ∧ 0 < n then
      line :: wrapTextLoop cw maxWidth rest (n + 1) (String.singleton c)
    else
      wrapTextLoop cw maxWidth rest (n + 1) (line.push c)

/-- All lines drawn by `wrapText` for a given text and column width. -/
def wrapText (cw : Char → ℚ) (maxWidth : ℚ) (text : String) : List String :=
  wrapTextLoop cw maxWidth text.data 0 ""

theorem measuredWidth_push (cw : Char → ℚ) (s : String) (c : Char) :
    measuredWidth cw (s.push c) = measuredWidth cw s + cw c := by
  simp [measuredWidth, String.data_push]

theorem wrapTextLoop_width_le (cw : Char → ℚ) (maxWidth : ℚ) :
    ∀ (cs : List Char) (n : ℕ) (line : String),
      (∀ c ∈ cs, 0 ≤ cw c ∧ cw c ≤ maxWidth) →
      measuredWidth cw line ≤ maxWidth →
      (n = 0 → line = "") →
      ∀ l ∈ wrapTextLoop cw maxWidth cs n line, measuredWidth cw l ≤ maxWidth := by
  intro cs
  induction cs with
  | nil =>
    intro n line hcs hline hn l hl
    simp only [wrapTextLoop, List.mem_singleton] at hl
    rw [hl]
    exact hline
  | cons c rest ih =>
    intro n line hcs hline hn l hl
    have hc := hcs c (List.mem_cons_self c rest)
    have hrest : ∀ x ∈ rest, 0 ≤ cw x ∧ cw x ≤ maxWidth :=
      fun x hx => hcs x (List.mem_cons_of_mem c hx)
    simp only [wrapTextLoop] at hl
    split at hl
    · rename_i hcond
      rcases List.mem_cons.mp hl with hl0 | hl1
      · rw [hl0]; exact hline
      · refine ih (n + 1) (String.singleton c) hrest ?_ (by omega) l hl1
        have : measuredWidth cw (String.singleton c) = cw c := by
          simp [measuredWidth, String.singleton]
        rw [this]
        exact hc.2
    · rename_i hcond
      refine ih (n + 1) (line.push c) hrest ?_ (by omega) l hl
      rcases Decidable.not_and_iff_or_not.mp hcond with hw | hnn
      · exact le_of_not_lt hw
      · have hn0 : n = 0 := by omega
        rw [hn hn0, measuredWidth_push]
        have : measuredWidth cw "" = 0 := by simp [measuredWidth]
        rw [this, zero_add]
        exact hc.2

theorem wrapTextLoop_concat (cw : Char → ℚ) (maxWidth : ℚ) :
    ∀ (cs : List Char) (n : ℕ) (line : String),
      ((wrapTextLoop cw maxWidth cs n line).map String.data).flatten = line.data ++ cs := by
  intro cs
  induction cs with
  | nil => intro n line; simp [wrapTextLoop]
  | cons c rest ih =>
    intro n line
    simp only [wrapTextLoop]
    split
    · simp only [List.map_cons, List.flatten_cons, ih (n + 1) (String.singleton c)]
      simp [String.singleton]
    · rw [ih (n + 1) (line.push c)]
      simp [String.data_push]

/-- C7.  The wrapping of `generateTableImage` is character-by-character:
the drawn lines concatenate, character-exactly and in order, back to the
input text (no whitespace-based splitting), and — whenever every
character of the text fits the column on its own (as CJK glyphs do in the
code's 32px font and 200/320-unit columns) — no drawn line measures wider
than the column's usable width `maxWidth`. -/
theorem wrap_text_char_by_char (cw : Char → ℚ) (maxWidth : ℚ) (text : String)
    (hmax : 0 ≤ maxWidth) (hcw : ∀ c ∈ text.data, 0 ≤ cw c ∧ cw c ≤ maxWidth) :
    (∀ l ∈ wrapText cw maxWidth text, measuredWidth cw l ≤ maxWidth) ∧
    ((wrapText cw maxWidth text).map String.data).flatten = text.data := by
  constructor
  · exact wrapTextLoop_width_le cw maxWidth text.data 0 ""
      hcw (by simpa [measuredWidth] using hmax) (fun _ => rfl)
  · exact wrapTextLoop_concat cw maxWidth text.data 0 ""

/-- Witness for C7: with every character 60 units wide and a 100-unit
column, the text `"分析"` wraps into lines each measuring at most 100. -/
theorem wrap_text_char_by_char_witness :
    (∀ l ∈ wrapText (fun _ => (60 : ℚ)) 100 "分析",
      measuredWidth (fun _ => (60 : ℚ)) l ≤ 100) ∧
    ((wrapText (fun _ => (60 : ℚ)) 100 "分析").map String.data).flatten = "分析".data :=
  wrap_text_char_by_char (fun _ => (60 : ℚ)) 100 "分析" (by norm_num)
    (by intro c hc; exact ⟨by norm_num, by norm_num⟩)

/-! ## PipelineController (`App`, src/App.tsx 755-893)

`handleSearch` and `handleGenerate` (src/App.tsx 761-808) perform no
state check themselves: each unconditionally sets the loading state and
fires its backend calls.  The rejection of triggers during an active
state lives in the view layer: the search button is disabled unless the
state is IDLE/COMPLETE/ERROR (line 270), the generate buttons are
disabled while GENERATING_POST/GENERATING_IMAGE (line 353) and do not
exist at all while a search is in flight because `handleSearch` clears
`results` on entry (line 764) and `ResultList` renders nothing for an
empty list (line 351). -/

/-- The loading-state enumeration (src/App.tsx 38-45). -/
inductive LoadingState where
  | IDLE
  | SEARCHING
  | GENERATING_POST
  | GENERATING_IMAGE
  | COMPLETE
  | ERROR
deriving DecidableEq

/-- An in-flight backend call awaiting resolution. -/
inductive PendingOp where
  | search
  | genContent
  | genImage
deriving DecidableEq

/-- The App component state: the `useState` slots plus the multiset of
in-flight calls (promises have no cancellation, so `pending` survives a
reset). -/
structure AppState where
  results : List JVal
  loadingState : LoadingState
  error : Option String
  generatedPost : Option Unit
  pending : List PendingOp

/-- The initial component state. -/
def initialAppState : AppState :=
  { results := []
    loadingState := .IDLE
    error := none
    generatedPost := none
    pending := [] }

/-- The synchronous entry of `handleSearch` (src/App.tsx 762-764):
set SEARCHING, clear the error and the result list, start the call. -/
def handleSearchEntry (s : AppState) : AppState :=
  { s with
    loadingState := .SEARCHING
    error := none
    results := []
    pending := s.pending ++ [.search] }

/-- The synchronous entry of `handleGenerate` (src/App.tsx 782-783):
set GENERATING_POST and clear the error — with no check of the current
loading state. -/
def handleGenerateEntry (s : AppState) : AppState :=
  { s with
    loadingState := .GENERATING_POST
    error := none
    pending := s.pending ++ [.genContent] }

/-- Whether the search form's submit button is enabled (src/App.tsx 270:
disabled unless IDLE, COMPLETE or ERROR). -/
def searchEnabled (s : AppState) : Bool :=
  s.loadingState == .IDLE || s.loadingState == .COMPLETE || s.loadingState == .ERROR

/-- Whether any generate button can fire: `ResultList` renders nothing
when `results` is empty (line 351) and disables its buttons while
generating (line 353). -/
def generateEnabled (s : AppState) : Bool :=
  !(s.results.length == 0) &&
    !(s.loadingState == .GENERATING_POST || s.loadingState == .GENERATING_IMAGE)

/-- An active (in-flight) pipeline state. -/
def isActive (l : LoadingState) : Bool :=
  l == .SEARCHING || l == .GENERATING_POST || l == .GENERATING_IMAGE

/-- One observable step of the UI-guarded system: user triggers fire only
when their control is enabled; each pending backend call may resolve at
any time with the effect the continuation in the source performs. -/
inductive Step : AppState → AppState → Prop where
  | searchSubmit (s : AppState) (h : searchEnabled s = true) :
      Step s (handleSearchEntry s)
  | searchOk (s : AppState) (data : List JVal) (h : .search ∈ s.pending) :
      Step s { s with
        results := data
        loadingState := .COMPLETE
        error := if data.length == 0 then some "no-results-message" else s.error
        pending := s.pending.erase .search }
  | searchErr (s : AppState) (msg : String) (h : .search ∈ s.pending) :
      Step s { s with
        loadingState := .ERROR
        error := some msg
        pending := s.pending.erase .search }
  | generateClick (s : AppState) (h : generateEnabled s = true) :
      Step s (handleGenerateEntry s)
  | contentOk (s : AppState) (h : .genContent ∈ s.pending) :
      Step s { s with
        loadingState := .GENERATING_IMAGE
        pending := s.pending.erase .genContent ++ [.genImage] }
  | contentErr (s : AppState) (h : .genContent ∈ s.pending) :
      Step s { s with
        loadingState := .ERROR
        error := some "generation-error-message"
        pending := s.pending.erase .genContent }
  | imageOk (s : AppState) (h : .genImage ∈ s.pending) :
      Step s { s with
        generatedPost := some ()
        loadingState := .COMPLETE
        pending := s.pending.erase .genImage }
  | resetClick (s : AppState) :
      Step s { results := []
               loadingState := .IDLE
               error := none
               generatedPost := none
               pending := s.pending }
  | closePreview (s : AppState) :
      Step s { s with generatedPost := none }

/-- States reachable from the initial state through guarded steps. -/
inductive Reachable : AppState → Prop where
  | init : Reachable initialAppState
  | step {s s' : AppState} : Reachable s → Step s s' → Reachable s'

theorem reachable_searching_results_empty {s : AppState} (h : Reachable s) :
    s.loadingState = .SEARCHING → s.results = [] := by
  induction h with
  | init => intro h0; cases h0
  | step hr hs ih =>
    cases hs with
    | searchSubmit h => intro _; rfl
    | searchOk data h => intro h0; cases h0
    | searchErr msg h => intro h0; cases h0
    | generateClick h => intro h0; cases h0
    | contentOk h => intro h0; cases h0
    | contentErr h => intro h0; cases h0
    | imageOk h => intro h0; cases h0
    | resetClick => intro h0; cases h0
    | closePreview => exact ih

/-- A state with a search in flight. -/
def searchingState : AppState :=
  { initialAppState with
    loadingState := .SEARCHING
    pending := [.search] }

/-- C9, counterexample.  `handleGenerate` itself neither rejects nor
ignores a trigger arriving while the state is SEARCHING: invoked on a
searching state it changes the state to GENERATING_POST and enqueues a
second pipeline. -/
theorem generate_during_search_not_ignored :
    (handleGenerateEntry searchingState).loadingState = .GENERATING_POST ∧
    (handleGenerateEntry searchingState).loadingState ≠ .SEARCHING ∧
    (handleGenerateEntry searchingState).pending = [.search, .genContent] := by
  refine ⟨rfl, ?_, rfl⟩
  intro h
  cases h

/-- C9, amended.  In the UI-guarded system the claim's conclusion holds:
in every reachable state whose loading state is active (SEARCHING,
GENERATING_POST or GENERATING_IMAGE) neither a search nor a generate
trigger can fire — the search button is disabled, and the generate
buttons are disabled while generating and absent while searching because
the result list is empty — so no second pipeline can be started from an
active state.  The guard lives in the view layer, not in
`handleGenerate`/`handleSearch`. -/
theorem no_triggers_while_active {s : AppState} (hr : Reachable s)
    (ha : isActive s.loadingState = true) :
    searchEnabled s = false ∧ generateEnabled s = false := by
  constructor
  · cases hl : s.loadingState <;> simp_all [isActive, searchEnabled]
  · cases hl : s.loadingState with
    | SEARCHING =>
      have hres : s.results = [] := reachable_searching_results_empty hr hl
      simp [generateEnabled, hres]
    | GENERATING_POST => simp [generateEnabled, hl]
    | GENERATING_IMAGE => simp [generateEnabled, hl]
    | IDLE => simp [isActive, hl] at ha
    | COMPLETE => simp [isActive, hl] at ha
    | ERROR => simp [isActive, hl] at ha

/-- Witness for C9's amended theorem: the state reached by submitting a
search from the initial state is SEARCHING, and there both triggers are
disabled. -/
theorem no_triggers_while_active_witness :
    searchEnabled (handleSearchEntry initialAppState) = false ∧
    generateEnabled (handleSearchEntry initialAppState) = false :=
  no_triggers_while_active
    (Reachable.step Reachable.init (Step.searchSubmit initialAppState rfl)) rfl
